import Mathlib

/-!
# Verification of the viwobot voice pipeline core

Shallow embedding of the relevant parts of the repository:

* `src/backend/voice_pipeline.py` — the VAD recorder `_record_audio`, the
  wake-word loop `_wake_word_loop` (its triggered branch and the nested
  `custom_tts_speak`), the bounded follow-up loop `_conversational_follow_up`,
  the STT front end `transcribe`, and the dispatcher response parser
  `_parse_dispatch_response`;
* `src/backend/tts_client.py` — `speak`, `_speak_elevenlabs`, `_speak_pyttsx3`;
* `src/backend/ws_manager.py` — `ConnectionManager`.

Python floats are modelled as exact rationals (all arithmetic the claims
depend on — `sample_rate / chunk_size` times small constants — is exact for
the parameter ranges of interest), machine integers as `Int`/`Nat`, raised
exceptions as `Except` values or explicit flags, and the module-global
`_running` flag as constantly `true` (no shutdown is in scope for any claim).
-/

namespace Viwo

/-! ## Audio frames and the RMS speech classifier

A frame is the block of signed 16-bit samples produced by one
`audio_stream.read(chunk_size)` call, modelled as a list of integers. -/

/-- One PCM frame: the int16 samples of a single `read(chunk_size)`. -/
abbrev Frame := List ℤ

/-- Models `rms > rms_threshold` from `_record_audio` (voice_pipeline.py:360-362),
where `rms = sqrt(mean(square(samples)))`.  To stay inside ℚ the comparison is
squared: for a nonempty frame and a nonnegative threshold,
`sqrt(sum/n) > thr  ↔  thr^2 * n < sum`.  For an empty frame numpy's mean is
NaN and `NaN > thr` is `False`, matching the `0 < 0` falsehood here. -/
def frameIsLoud (thr : ℚ) (f : Frame) : Bool :=
  decide (thr ^ 2 * (f.length : ℚ) < (f.map (fun s => (s : ℚ) ^ 2)).sum)

/-- Python `int()` applied to a nonnegative rational: truncation toward zero,
which for nonnegative arguments (every call site below) is the floor. -/
def pyInt (q : ℚ) : ℕ := (⌊q⌋).toNat

/-! ## The Endpointer: `_record_audio` (voice_pipeline.py:316-376)

The loop reads `chunk_size` samples at a time, appends every frame read,
classifies it by RMS energy against the hard-coded threshold 400, and stops
on one of three conditions: pre-speech silence budget exceeded, post-speech
silence budget exceeded, or the hard cap `max_total_chunks` reached (the
`range` bound).  The microphone is modelled as an infinite frame supply
`stream : ℕ → Frame`; the stale-frame flush at the top of the function means
`stream 0` is the first frame read after the flush. -/

/-- `chunks_per_second = sample_rate / chunk_size` (voice_pipeline.py:330). -/
def cpsOf (sampleRate chunkSize : ℕ) : ℚ := (sampleRate : ℚ) / (chunkSize : ℚ)

/-- `max_silent_chunks_before = int(chunks_per_second * silence_timeout)`. -/
def maxSilentBefore (sampleRate chunkSize : ℕ) (silenceTimeout : ℚ) : ℕ :=
  pyInt (cpsOf sampleRate chunkSize * silenceTimeout)

/-- `max_silent_chunks_after = int(chunks_per_second * 1.5)`. -/
def maxSilentAfter (sampleRate chunkSize : ℕ) : ℕ :=
  pyInt (cpsOf sampleRate chunkSize * (3 / 2 : ℚ))

/-- `max_total_chunks = int(chunks_per_second * max_duration)`. -/
def maxTotalChunks (sampleRate chunkSize : ℕ) (maxDuration : ℚ) : ℕ :=
  pyInt (cpsOf sampleRate chunkSize * maxDuration)

/-- The recording loop of `_record_audio` (voice_pipeline.py:351-374).
Arguments after the stream and the two silence budgets: current frame index,
remaining iterations of the `range(max_total_chunks)` loop, `has_spoken`,
`silent_chunks`.  Returns the appended frames (in capture order) and the
final `has_spoken`.  The `if not _running: break` check is modelled as never
firing (`_running` stays `true`). -/
def recordLoop (stream : ℕ → Frame) (maxBefore maxAfter : ℕ) :
    ℕ → ℕ → Bool → ℕ → List Frame × Bool
  | _, 0, hs, _ => ([], hs)
  | i, rem + 1, hs, silent =>
    let f := stream i
    let loud := frameIsLoud 400 f
    let hs2 := hs || loud
    let silent2 := if loud then 0 else silent + 1
    if !hs2 && decide (maxBefore < silent2) then
      ([f], hs2)
    else if hs2 && decide (maxAfter < silent2) then
      ([f], hs2)
    else
      let r := recordLoop stream maxBefore maxAfter (i + 1) rem hs2 silent2
      (f :: r.1, r.2)

/-- `_record_audio` down to the frame list: the frames appended and the final
`has_spoken` state.  The local `rms_threshold = 400` (voice_pipeline.py:329)
is baked into `recordLoop`. -/
def recordFrames (stream : ℕ → Frame) (chunkSize : ℕ) (maxDuration silenceTimeout : ℚ)
    (sampleRate : ℕ := 16000) : List Frame × Bool :=
  recordLoop stream (maxSilentBefore sampleRate chunkSize silenceTimeout)
    (maxSilentAfter sampleRate chunkSize) 0
    (maxTotalChunks sampleRate chunkSize maxDuration) false 0

/-- The value `_record_audio` actually returns (voice_pipeline.py:376):
`b''.join(frames)` — only the concatenated bytes, no `has_spoken` flag. -/
def record_audio (stream : ℕ → Frame) (chunkSize : ℕ) (maxDuration silenceTimeout : ℚ)
    (sampleRate : ℕ := 16000) : List ℤ :=
  (recordFrames stream chunkSize maxDuration silenceTimeout sampleRate).1.flatten

/-! ## Python string helpers

`str.strip()`, `str.splitlines()`, `str.lower()` and `str.startswith(...)`,
modelled on character lists.  `strip`/`isspace` cover the ASCII whitespace
characters; `splitlines` covers the line separators that occur in the
dispatcher responses (`\n`, `\r`, `\r\n`); `lower` is ASCII lowercasing
(`Char.toLower`), which agrees with Python on the ASCII inputs at issue. -/

/-- ASCII whitespace, as recognised by `str.strip()`. -/
def isPySpace (c : Char) : Bool :=
  c = ' ' || c = '\t' || c = '\n' || c = '\r' || c = '\x0b' || c = '\x0c'

/-- `str.strip()` on a character list. -/
def stripChars (l : List Char) : List Char :=
  ((l.dropWhile isPySpace).reverse.dropWhile isPySpace).reverse

/-- `str.strip()` on a `String`. -/
def pyStripStr (s : String) : String := String.mk (stripChars s.data)

/-- Worker for `str.splitlines()`: accumulates the current line (reversed)
and splits at `\n`, `\r` and the two-character `\r\n`. -/
def pySplitlinesAux : List Char → List Char → List (List Char)
  | [], acc => [acc.reverse]
  | '\r' :: '\n' :: rest, acc =>
    acc.reverse :: (if rest = [] then [] else pySplitlinesAux rest [])
  | '\n' :: rest, acc =>
    acc.reverse :: (if rest = [] then [] else pySplitlinesAux rest [])
  | '\r' :: rest, acc =>
    acc.reverse :: (if rest = [] then [] else pySplitlinesAux rest [])
  | c :: rest, acc => pySplitlinesAux rest (c :: acc)

/-- `str.splitlines()`: the empty string yields no lines; a trailing line
separator does not produce a trailing empty line. -/
def pySplitlines (l : List Char) : List (List Char) :=
  if l = [] then [] else pySplitlinesAux l []

/-- `str.startswith(pat)`: the first argument is the pattern. -/
def startsWithChars : List Char → List Char → Bool
  | [], _ => true
  | _ :: _, [] => false
  | p :: ps, c :: cs => p = c && startsWithChars ps cs

/-- `str.lower()` (ASCII). -/
def lowerChars (l : List Char) : List Char := l.map Char.toLower

/-! ## The dispatcher response parser
`_parse_dispatch_response` (voice_pipeline.py:162-181). -/

/-- The dict built by `_parse_dispatch_response`; it is initialised with all
five keys and only ever updated, so the result always carries all of them. -/
structure DispatchResult where
  action : String
  say : String
  message : String
  time : String
  topic : String
  deriving DecidableEq

/-- Whether a (stripped) line starts with the tag `ACTION:`. -/
def isActionLine (l : List Char) : Bool := startsWithChars "ACTION:".data l

/-- Whether a (stripped) line starts with the tag `SAY:`. -/
def isSayLine (l : List Char) : Bool := startsWithChars "SAY:".data l

/-- One iteration of the `for line in lines` loop of
`_parse_dispatch_response` (voice_pipeline.py:170-180): an if/elif chain on
the line tag; each branch takes the remainder after the tag, strips it, and
for `ACTION:` additionally lowercases it. -/
def dispatchStep (r : DispatchResult) (line : List Char) : DispatchResult :=
  if isActionLine line then
    { r with action := String.mk (lowerChars (stripChars (line.drop 7))) }
  else if startsWithChars "MESSAGE:".data line then
    { r with message := String.mk (stripChars (line.drop 8)) }
  else if startsWithChars "TIME:".data line then
    { r with time := String.mk (stripChars (line.drop 5)) }
  else if startsWithChars "TOPIC:".data line then
    { r with topic := String.mk (stripChars (line.drop 6)) }
  else if isSayLine line then
    { r with say := String.mk (stripChars (line.drop 4)) }
  else r

/-- `lines = [line.strip() for line in response.strip().splitlines() if line.strip()]`
(voice_pipeline.py:169). -/
def dispatchLines (response : String) : List (List Char) :=
  ((pySplitlines (stripChars response.data)).map stripChars).filter (fun l => !l.isEmpty)

/-- `_parse_dispatch_response`: fold the line loop over the initial dict
`{action: "chat", say: response, message: "", time: "5m", topic: ""}`. -/
def parseDispatchResponse (response : String) : DispatchResult :=
  (dispatchLines response).foldl dispatchStep
    { action := "chat", say := response, message := "", time := "5m", topic := "" }

/-! ## The TTS client: tts_client.py

`speak` (tts_client.py:139-165) selects ElevenLabs when an API key is
present, else pyttsx3.  `_speak_elevenlabs` catches every exception of the
streaming block and falls back to `_speak_pyttsx3`, which catches every
exception of its own block and merely logs.  `speak` itself has no `return`
statement carrying a value, so every call evaluates to Python `None` — in
particular the non-blocking path starts a daemon thread but does not return
it.  The two synthesis blocks are modelled as `Except` parameters (the
outcome the block would have if executed). -/

/-- Which synthesis path ended up producing audio. -/
inductive SpeakAudio
  | primary
  | fallback
  | silent
  deriving DecidableEq

/-- Environment of one `speak` call: key presence and the outcomes of the
two synthesis blocks. -/
structure TtsEnv where
  hasApiKey : Bool
  elevenAttempt : Except String Unit
  pyttsxAttempt : Except String Unit

/-- `_speak_pyttsx3` (tts_client.py:111-134): the whole body is wrapped in
try/except, so a failing attempt is absorbed and no audio is produced. -/
def speakPyttsx3Model (attempt : Except String Unit) : SpeakAudio :=
  match attempt with
  | .ok _ => .fallback
  | .error _ => .silent

/-- `_speak_elevenlabs` (tts_client.py:59-106): on any exception of the
streaming block it falls back to `_speak_pyttsx3`. -/
def speakElevenlabsModel (eleven pyttsx : Except String Unit) : SpeakAudio :=
  match eleven with
  | .ok _ => .primary
  | .error _ => speakPyttsx3Model pyttsx

/-- What one `speak` call produces: the audio path taken and the Python
return value, which is `None` on every control path (no `return expr`
anywhere in `speak`). -/
structure SpeakResult where
  audio : SpeakAudio
  ret : Option Unit
  deriving DecidableEq

/-- `speak` (tts_client.py:139-165).  The `Except` result type records
whether an exception escapes to the caller; the text truncation
`_truncate_for_tts` is a pure total string operation that cannot raise and
only shortens the text, so it is not modelled separately. -/
def speakModel (text : String) (env : TtsEnv) (blocking : Bool) : Except String SpeakResult :=
  if text = "" || pyStripStr text = "" then .ok { audio := .silent, ret := none }
  else
    let audio := if env.hasApiKey then speakElevenlabsModel env.elevenAttempt env.pyttsxAttempt
                 else speakPyttsx3Model env.pyttsxAttempt
    let _ := blocking
    .ok { audio := audio, ret := none }

/-! ## The barge-in poll: `custom_tts_speak` (voice_pipeline.py:451-486)

`custom_tts_speak(text, blocking=True)` calls `tts_speak_fn(text,
blocking=False)` — which is `tts_client.speak` (wired in main.py:94-100) —
and keeps its return value as `tts_thread`.  If `tts_thread` is falsy it
returns at once; otherwise it polls the wake detector while the thread is
alive and, on a detection, calls `tts_client.interrupt()`. -/

/-- Whether the module `tts_client` defines a function `interrupt`.  Its
module-level names are `_truncate_for_tts`, `_speak_elevenlabs`,
`_speak_pyttsx3` and `speak` only, so the attribute lookup
`tts_client.interrupt` raises `AttributeError`. -/
def ttsClientHasInterrupt : Bool := false

/-- The polling loop (voice_pipeline.py:464-483), with `fuel` the number of
poll iterations until the TTS thread dies and `detect k` whether the wake
word fires on the frame polled at iteration `k`.  Returns the final value of
`interrupted`.  When the interrupt attribute is missing, the call raises
inside the loop body's `try` and the handler merely sleeps and continues. -/
def pollLoop (hasInterrupt : Bool) (detect : ℕ → Bool) : ℕ → Bool
  | 0 => false
  | k + 1 =>
    if detect k then
      if hasInterrupt then true else pollLoop hasInterrupt detect k
    else pollLoop hasInterrupt detect k

/-- Whether one blocking `custom_tts_speak` call ends by raising
`InterruptedError` (voice_pipeline.py:485-486), given the value returned by
`tts_speak_fn(text, blocking=False)`. -/
def customTtsSpeakOutcome (detect : ℕ → Bool) (fuel : ℕ) (tts_thread : Option Unit) : Bool :=
  match tts_thread with
  | none => false
  | some _ => pollLoop ttsClientHasInterrupt detect fuel

/-! ## The STT front end: `transcribe` (voice_pipeline.py:111-124) -/

/-- `_transcribe_google` (voice_pipeline.py:66-82): recognition errors are
caught and yield the empty string. -/
def transcribeGoogle (res : Except Unit String) : String :=
  match res with
  | .ok t => t
  | .error _ => ""

/-- `_transcribe_whisper` (voice_pipeline.py:85-108): the text is stripped on
success; any exception yields the empty string. -/
def transcribeWhisper (res : Except Unit String) : String :=
  match res with
  | .ok t => pyStripStr t
  | .error _ => ""

/-- `transcribe`: engine selection with automatic Google-to-Whisper
fallback when Google produces the empty string. -/
def transcribeModel (engine : String) (googleRes whisperRes : Except Unit String) : String :=
  if engine = "whisper" then transcribeWhisper whisperRes
  else
    let r := transcribeGoogle googleRes
    if r = "" then transcribeWhisper whisperRes else r

/-! ## The session driver: one wake-triggered turn and the follow-up loop

The observable session state is the sequence of `ws_manager.broadcast_sync`
payloads.  `_route`'s own broadcasts (the `speaking` events of
`_smart_dispatch`) are supplied as parameters: `routeEv n = (evs, raised)`
gives the events round `n`'s `_route` call emits before returning or, when
`raised = true`, before an exception escapes it.  `InterruptedError` cannot
escape `_route` because `custom_tts_speak` never raises it (`tts_client.speak`
returns `None`, see `customTtsSpeakOutcome`), so the
`except InterruptedError` branch of the wake loop (voice_pipeline.py:533-537)
is unreachable and any escaping exception lands in the generic handler
(voice_pipeline.py:539-543).  The `_running` flag is modelled as `true`. -/

/-- A broadcast state event, the payloads of voice_pipeline.py's
`broadcast_sync` calls.  The `thinking` payload carries the `transcript`
field, which is the placeholder string of three dots before transcription
and the actual transcript after it. -/
inductive Ev
  | idle
  | listening
  | thinking (transcript : String)
  | speaking (response : String)
  deriving DecidableEq

/-- `FOLLOW_UP_MAX_ROUNDS = 5` (voice_pipeline.py:57). -/
def FOLLOW_UP_MAX_ROUNDS : ℕ := 5

/-- Result of `_conversational_follow_up`: the events broadcast, whether an
exception escaped a `_route` call, and how many loop iterations were
entered (the `round_num` values used are `0 .. roundsStarted - 1`). -/
structure FollowUpOut where
  events : List Ev
  raised : Bool
  roundsStarted : ℕ
  deriving DecidableEq

/-- The `for round_num in range(FOLLOW_UP_MAX_ROUNDS)` loop of
`_conversational_follow_up` (voice_pipeline.py:553-591).  `ts n` is the
transcription of round `n`'s recording.  Each round broadcasts `listening`,
records, broadcasts the thinking placeholder, transcribes; a blank
transcript (`if not transcript.strip()`) broadcasts `idle` and breaks;
otherwise it broadcasts the transcript and runs `_route`.  Exhausting the
range runs the for-else: a non-blocking farewell TTS and an `idle`
broadcast. -/
def followUpLoop (ts : ℕ → String) (routeEv : ℕ → List Ev × Bool) :
    ℕ → ℕ → FollowUpOut
  | _, 0 => { events := [Ev.idle], raised := false, roundsStarted := 0 }
  | round, fuel + 1 =>
    let t := ts round
    if pyStripStr t = "" then
      { events := [Ev.listening, Ev.thinking "...", Ev.idle], raised := false,
        roundsStarted := 1 }
    else
      let r0 := routeEv round
      if r0.2 then
        { events := [Ev.listening, Ev.thinking "...", Ev.thinking t] ++ r0.1,
          raised := true, roundsStarted := 1 }
      else
        let r := followUpLoop ts routeEv (round + 1) fuel
        { events := [Ev.listening, Ev.thinking "...", Ev.thinking t] ++ r0.1 ++ r.events,
          raised := r.raised, roundsStarted := 1 + r.roundsStarted }

/-- `_conversational_follow_up`, started at round 0 with the full budget. -/
def conversationalFollowUp (ts : ℕ → String) (routeEv : ℕ → List Ev × Bool) : FollowUpOut :=
  followUpLoop ts routeEv 0 FOLLOW_UP_MAX_ROUNDS

/-- Result of one triggered turn of the wake-word loop. -/
structure TurnOut where
  events : List Ev
  transcribeCalls : ℕ
  dispatchCalled : Bool
  deriving DecidableEq

/-- One triggered iteration of `_wake_word_loop` (voice_pipeline.py:445-531):
broadcast `listening`, chime, record, broadcast the thinking placeholder,
transcribe (`transcript` is the result); an empty transcript
(`if not transcript`) broadcasts `idle` and continues the loop with no
`_route` call; otherwise the transcript is broadcast and `_route` runs
(events `routeTop.1`, escaping exception `routeTop.2`), then the follow-up
loop.  Whether the turn ends through the generic exception handler
(voice_pipeline.py:543) or normally (voice_pipeline.py:521), its last
broadcast is `idle`. -/
def wakeTurn (transcript : String) (routeTop : List Ev × Bool)
    (ts : ℕ → String) (routeEv : ℕ → List Ev × Bool) : TurnOut :=
  let pre := [Ev.listening, Ev.thinking "..."]
  if transcript = "" then
    { events := pre ++ [Ev.idle], transcribeCalls := 1, dispatchCalled := false }
  else if routeTop.2 then
    { events := pre ++ [Ev.thinking transcript] ++ routeTop.1 ++ [Ev.idle],
      transcribeCalls := 1, dispatchCalled := true }
  else
    let f := conversationalFollowUp ts routeEv
    { events := pre ++ [Ev.thinking transcript] ++ routeTop.1 ++ f.events ++ [Ev.idle],
      transcribeCalls := 1 + f.roundsStarted, dispatchCalled := true }

/-! ## The event broadcaster: `ConnectionManager` (ws_manager.py)

State: the set of active connections, each with the messages delivered to it
so far, in delivery order.  `broadcast` sends the payload to every current
connection and prunes the ones whose send failed (they do not receive the
payload); `connect` registers a fresh connection with nothing delivered;
there is no replay buffer anywhere in the class.  Broadcasts are modelled as
atomic in publish order: `broadcast_sync` schedules them on the single
stored event loop in call order. -/

/-- Connection manager state: connection id paired with the messages
delivered to it, oldest first. -/
abbrev BCState := List (ℕ × List String)

/-- `ConnectionManager.connect` (ws_manager.py:37-41): register a new
connection; nothing has been delivered to it. -/
def bcConnect (s : BCState) (id : ℕ) : BCState := (id, []) :: s

/-- `ConnectionManager.disconnect` (ws_manager.py:43-46). -/
def bcDisconnect (s : BCState) (id : ℕ) : BCState := s.filter (fun c => c.1 ≠ id)

/-- `ConnectionManager.broadcast` (ws_manager.py:48-65): each connection
whose send succeeds receives the payload; the ones that fail are pruned. -/
def bcBroadcast (s : BCState) (msg : String) (failed : ℕ → Bool) : BCState :=
  (s.filter (fun c => !failed c.1)).map (fun c => (c.1, c.2 ++ [msg]))

/-- The messages delivered so far to connection `id`, if it is active. -/
def delivered (s : BCState) (id : ℕ) : Option (List String) :=
  (s.find? (fun c => c.1 == id)).map Prod.snd

/-- A sequence of `broadcast` calls, in publish order; each element is the
payload together with the connections whose send fails for it. -/
def bcBroadcasts (s : BCState) (msgs : List (String × (ℕ → Bool))) : BCState :=
  msgs.foldl (fun st m => bcBroadcast st m.1 m.2) s

/-! ## Recorder lemmas -/

/-- On a silent stream, starting with `has_spoken = false` and `silent_chunks
= s ≤ maxBefore`, the loop appends `min (maxBefore + 1 - s) rem` frames and
never sets `has_spoken`. -/
theorem recordLoop_silent (stream : ℕ → Frame) (mb ma : ℕ)
    (hsil : ∀ j, frameIsLoud 400 (stream j) = false) :
    ∀ rem i s, s ≤ mb →
      (recordLoop stream mb ma i rem false s).1.length = min (mb + 1 - s) rem ∧
      (recordLoop stream mb ma i rem false s).2 = false := by
  intro rem
  induction rem with
  | zero => intro i s _; simp [recordLoop]
  | succ n ih =>
    intro i s hs
    by_cases hbreak : mb < s + 1
    · have : min (mb + 1 - s) (n + 1) = 1 := by omega
      simp [recordLoop, hsil i, hbreak, this]
    · have h1 := ih (i + 1) (s + 1) (by omega)
      simp [recordLoop, hsil i, hbreak, h1.1, h1.2]
      omega

/-- On an everywhere-loud stream the loop never breaks early: it runs all
`rem` iterations. -/
theorem recordLoop_all_loud (stream : ℕ → Frame) (mb ma : ℕ)
    (hl : ∀ j, frameIsLoud 400 (stream j) = true) :
    ∀ rem i hs s, (recordLoop stream mb ma i rem hs s).1.length = rem := by
  intro rem
  induction rem with
  | zero => intro i hs s; simp [recordLoop]
  | succ n ih =>
    intro i hs s
    simp [recordLoop, hl i]
    exact ih (i + 1) true 0

/-- The loop never appends more than `rem` frames. -/
theorem recordLoop_length_le (stream : ℕ → Frame) (mb ma : ℕ) :
    ∀ rem i hs s, (recordLoop stream mb ma i rem hs s).1.length ≤ rem := by
  intro rem
  induction rem with
  | zero => intro i hs s; simp [recordLoop]
  | succ n ih =>
    intro i hs s
    by_cases hl : frameIsLoud 400 (stream i) = true
    · simp [recordLoop, hl]
      exact ih (i + 1) true 0
    · have hl' : frameIsLoud 400 (stream i) = false := by simpa using hl
      cases hs with
      | true =>
        by_cases hma : ma < s + 1
        · simp [recordLoop, hl', hma]
        · simp [recordLoop, hl', hma]
          exact ih (i + 1) true (s + 1)
      | false =>
        by_cases hmb : mb < s + 1
        · simp [recordLoop, hl', hmb]
        · simp [recordLoop, hl', hmb]
          exact ih (i + 1) false (s + 1)

/-- Processing a block of `n ≥ 1` loud frames neither breaks nor changes the
remaining behaviour except to leave the state at `has_spoken = true`,
`silent_chunks = 0`. -/
theorem recordLoop_loud_prefix (stream : ℕ → Frame) (mb ma : ℕ) :
    ∀ n i rem hs s, 1 ≤ n → n ≤ rem →
      (∀ j, j < n → frameIsLoud 400 (stream (i + j)) = true) →
      (recordLoop stream mb ma i rem hs s).1.length =
        n + (recordLoop stream mb ma (i + n) (rem - n) true 0).1.length := by
  intro n
  induction n with
  | zero => intro i rem hs s h1; omega
  | succ m ih =>
    intro i rem hs s _ hn hl
    obtain ⟨rem', rfl⟩ : ∃ r, rem = r + 1 := ⟨rem - 1, by omega⟩
    have hl0 : frameIsLoud 400 (stream i) = true := by simpa using hl 0 (by omega)
    rcases Nat.eq_zero_or_pos m with hm | hm
    · subst hm
      simp [recordLoop, hl0]
      omega
    · have hrec := ih (i + 1) rem' true 0 hm (by omega)
        (fun j hj => by
          have := hl (j + 1) (by omega)
          have e : i + (j + 1) = i + 1 + j := by omega
          rwa [e] at this)
      have e1 : i + (m + 1) = i + 1 + m := by omega
      have e2 : rem' + 1 - (m + 1) = rem' - m := by omega
      simp [recordLoop, hl0, hrec, e1, e2]
      omega

/-- After speech has been seen (`has_spoken = true`), a silent tail starting
with `silent_chunks = s ≤ maxAfter` adds `min (maxAfter + 1 - s) rem`
frames. -/
theorem recordLoop_post_silence (stream : ℕ → Frame) (mb ma : ℕ) :
    ∀ rem i s, (∀ j, i ≤ j → frameIsLoud 400 (stream j) = false) → s ≤ ma →
      (recordLoop stream mb ma i rem true s).1.length = min (ma + 1 - s) rem ∧
      (recordLoop stream mb ma i rem true s).2 = true := by
  intro rem
  induction rem with
  | zero => intro i s _ _; simp [recordLoop]
  | succ n ih =>
    intro i s hsil hs
    have hi : frameIsLoud 400 (stream i) = false := hsil i le_rfl
    by_cases hbreak : ma < s + 1
    · have : min (ma + 1 - s) (n + 1) = 1 := by omega
      simp [recordLoop, hi, hbreak, this]
    · have h1 := ih (i + 1) (s + 1) (fun j hj => hsil j (by omega)) (by omega)
      simp [recordLoop, hi, hbreak, h1.1, h1.2]
      omega

/-- Whatever the stream, the frame list the loop returns is the block of
consecutive stream frames starting at `i`, in capture order. -/
theorem range_map_shift (stream : ℕ → Frame) (i k : ℕ) :
    (List.range (k + 1)).map (fun j => stream (i + j)) =
      stream i :: (List.range k).map (fun j => stream (i + 1 + j)) := by
  rw [List.range_succ_eq_map, List.map_cons, List.map_map]
  refine congrArg₂ _ (by simp) (List.map_congr_left ?_)
  intro j _
  simp only [Function.comp_apply]
  congr 1
  omega

theorem map_range_one (stream : ℕ → Frame) (i : ℕ) :
    (List.range 1).map (fun j => stream (i + j)) = [stream i] := by
  have h : List.range 1 = [0] := rfl
  rw [h, List.map_cons, List.map_nil, Nat.add_zero]

theorem recordLoop_frames_prefix (stream : ℕ → Frame) (mb ma : ℕ) :
    ∀ rem i hs s, ∃ k,
      (recordLoop stream mb ma i rem hs s).1 =
        (List.range k).map (fun j => stream (i + j)) := by
  intro rem
  induction rem with
  | zero => intro i hs s; exact ⟨0, by simp [recordLoop]⟩
  | succ n ih =>
    intro i hs s
    by_cases hl : frameIsLoud 400 (stream i) = true
    · obtain ⟨k, hk⟩ := ih (i + 1) true 0
      refine ⟨k + 1, ?_⟩
      rw [range_map_shift]
      simp [recordLoop, hl, hk]
    · have hl' : frameIsLoud 400 (stream i) = false := by simpa using hl
      cases hs with
      | true =>
        by_cases hma : ma < s + 1
        · exact ⟨1, by simp [recordLoop, hl', hma, map_range_one]⟩
        · obtain ⟨k, hk⟩ := ih (i + 1) true (s + 1)
          refine ⟨k + 1, ?_⟩
          rw [range_map_shift]
          simp [recordLoop, hl', hma, hk]
      | false =>
        by_cases hmb : mb < s + 1
        · exact ⟨1, by simp [recordLoop, hl', hmb, map_range_one]⟩
        · obtain ⟨k, hk⟩ := ih (i + 1) false (s + 1)
          refine ⟨k + 1, ?_⟩
          rw [range_map_shift]
          simp [recordLoop, hl', hmb, hk]

/-! ## Concrete evaluation helpers, shared by the witnesses below -/

/-- A one-sample zero frame is classified as silence. -/
theorem frameIsLoud_zero : frameIsLoud 400 [0] = false := by
  simp [frameIsLoud]

/-- A one-sample frame of amplitude 1000 is classified as speech. -/
theorem frameIsLoud_kilo : frameIsLoud 400 [1000] = true := by
  simp [frameIsLoud]
  norm_num

/-- With one chunk per second and `silence_timeout = 2`, the pre-speech
budget is 2 chunks. -/
theorem maxSilentBefore_unit : maxSilentBefore 1 1 2 = 2 := by
  simp [maxSilentBefore, pyInt, cpsOf]

/-- With one chunk per second, the post-speech budget is `int(1.5) = 1`. -/
theorem maxSilentAfter_unit : maxSilentAfter 1 1 = 1 := by
  simp [maxSilentAfter, pyInt, cpsOf]
  norm_num

/-- With one chunk per second and `max_duration = 5`, the cap is 5 chunks. -/
theorem maxTotalChunks_unit : maxTotalChunks 1 1 5 = 5 := by
  simp [maxTotalChunks, pyInt, cpsOf]

/-! ## Claim C3 -/

/-- C3: for every frame sequence with no frame above the RMS threshold, the
recording ends with `has_spoken = false` and a frame count determined by the
pre-speech budget `int(chunks_per_second * silence_timeout)` — one more than
the budget, since the frame that trips it is also appended — provided the
`max_duration` cap is not the smaller bound. -/
theorem C3_silence_stops_at_pre_speech_budget (stream : ℕ → Frame) (chunkSize : ℕ)
    (maxDuration silenceTimeout : ℚ) (sampleRate : ℕ)
    (hsil : ∀ j, frameIsLoud 400 (stream j) = false)
    (hcap : maxSilentBefore sampleRate chunkSize silenceTimeout + 1 ≤
      maxTotalChunks sampleRate chunkSize maxDuration) :
    (recordFrames stream chunkSize maxDuration silenceTimeout sampleRate).2 = false ∧
    (recordFrames stream chunkSize maxDuration silenceTimeout sampleRate).1.length =
      maxSilentBefore sampleRate chunkSize silenceTimeout + 1 := by
  have h := recordLoop_silent stream (maxSilentBefore sampleRate chunkSize silenceTimeout)
    (maxSilentAfter sampleRate chunkSize) hsil
    (maxTotalChunks sampleRate chunkSize maxDuration) 0 0 (by omega)
  refine ⟨h.2, ?_⟩
  rw [recordFrames, h.1]
  omega

/-- C3 witness: one zero-amplitude chunk per second, `silence_timeout = 2`,
`max_duration = 5`: the recorder stops after 3 = 2 + 1 chunks, silent. -/
theorem C3_witness :
    (recordFrames (fun _ => [0]) 1 5 2 1).2 = false ∧
    (recordFrames (fun _ => [0]) 1 5 2 1).1.length = maxSilentBefore 1 1 2 + 1 :=
  C3_silence_stops_at_pre_speech_budget (fun _ => [0]) 1 5 2 1
    (fun _ => frameIsLoud_zero)
    (by rw [maxSilentBefore_unit, maxTotalChunks_unit]; omega)

/-! ## Claim C4 (corrected) -/

/-- C4 counterexample: one chunk per second, a single loud frame followed by
silence, `max_duration = 5`.  The post-speech budget is `int(1.5 * 1) = 1`
frame, and the recorder returns 3 frames — N + budget + 1, not
N + budget = 2 as the claim counts it. -/
theorem C4_counterexample :
    maxSilentAfter 1 1 = 1 ∧
    (recordFrames (fun j => if j = 0 then [1000] else [0]) 1 5 2 1).1.length = 3 ∧
    (3 : ℕ) ≠ 1 + maxSilentAfter 1 1 := by
  refine ⟨maxSilentAfter_unit, ?_, by rw [maxSilentAfter_unit]; omega⟩
  simp [recordFrames, maxSilentBefore_unit, maxSilentAfter_unit, maxTotalChunks_unit,
    recordLoop, frameIsLoud_zero, frameIsLoud_kilo]

/-- C4 as amended: for `N ≥ 1` frames above threshold followed by silence,
the recorder returns exactly `N + int(1.5 * chunks_per_second) + 1` frames —
the `N` speech frames, the full post-speech silence budget, and the single
frame that trips it — provided the `max_duration` cap is not reached first;
and the result is determined by the frame sequence alone (two runs on equal
streams agree). -/
theorem C4_speech_then_silence_endpoint (stream : ℕ → Frame) (chunkSize : ℕ)
    (maxDuration silenceTimeout : ℚ) (sampleRate : ℕ) (N : ℕ)
    (hN : 1 ≤ N)
    (hloud : ∀ j, j < N → frameIsLoud 400 (stream j) = true)
    (hsil : ∀ j, N ≤ j → frameIsLoud 400 (stream j) = false)
    (hcap : N + maxSilentAfter sampleRate chunkSize + 1 ≤
      maxTotalChunks sampleRate chunkSize maxDuration) :
    (recordFrames stream chunkSize maxDuration silenceTimeout sampleRate).1.length =
      N + maxSilentAfter sampleRate chunkSize + 1 ∧
    ∀ stream2 : ℕ → Frame, (∀ j, stream2 j = stream j) →
      recordFrames stream2 chunkSize maxDuration silenceTimeout sampleRate =
        recordFrames stream chunkSize maxDuration silenceTimeout sampleRate := by
  constructor
  · have h1 := recordLoop_loud_prefix stream
      (maxSilentBefore sampleRate chunkSize silenceTimeout)
      (maxSilentAfter sampleRate chunkSize) N 0
      (maxTotalChunks sampleRate chunkSize maxDuration) false 0 hN (by omega)
      (fun j hj => by simpa using hloud j hj)
    have h2 := recordLoop_post_silence stream
      (maxSilentBefore sampleRate chunkSize silenceTimeout)
      (maxSilentAfter sampleRate chunkSize)
      (maxTotalChunks sampleRate chunkSize maxDuration - N) N 0
      (fun j hj => hsil j hj) (by omega)
    rw [recordFrames, h1]
    rw [Nat.zero_add] at h1 ⊢
    rw [h2.1]
    omega
  · intro stream2 h
    have : stream2 = stream := funext h
    rw [this]

/-- C4 witness for the amended statement: one loud chunk then silence at one
chunk per second yields 1 + 1 + 1 = 3 frames, and equal streams agree. -/
theorem C4_witness :
    (recordFrames (fun j => if j = 0 then [1000] else [0]) 1 5 2 1).1.length =
      1 + maxSilentAfter 1 1 + 1 ∧
    ∀ stream2 : ℕ → Frame, (∀ j, stream2 j = (fun j => if j = 0 then [1000] else [0]) j) →
      recordFrames stream2 1 5 2 1 =
        recordFrames (fun j => if j = 0 then [1000] else [0]) 1 5 2 1 :=
  C4_speech_then_silence_endpoint (fun j => if j = 0 then [1000] else [0]) 1 5 2 1 1
    le_rfl
    (fun j hj => by
      have : j = 0 := by omega
      simp [this, frameIsLoud_kilo])
    (fun j hj => by
      have : ¬j = 0 := by omega
      simp [this, frameIsLoud_zero])
    (by rw [maxSilentAfter_unit, maxTotalChunks_unit]; omega)

/-! ## Claim C5 -/

/-- C5: when speech starts at the very first frame and the RMS never drops
below threshold, the recorder runs the full `range(max_total_chunks)` loop —
it stops only at the `max_duration` cap; and no recording, on any stream,
ever exceeds that cap. -/
theorem C5_continuous_speech_hits_max_duration (stream : ℕ → Frame) (chunkSize : ℕ)
    (maxDuration silenceTimeout : ℚ) (sampleRate : ℕ)
    (hloud : ∀ j, frameIsLoud 400 (stream j) = true) :
    (recordFrames stream chunkSize maxDuration silenceTimeout sampleRate).1.length =
      maxTotalChunks sampleRate chunkSize maxDuration ∧
    ∀ stream2 : ℕ → Frame,
      (recordFrames stream2 chunkSize maxDuration silenceTimeout sampleRate).1.length ≤
        maxTotalChunks sampleRate chunkSize maxDuration := by
  constructor
  · exact recordLoop_all_loud stream _ _ hloud _ 0 false 0
  · intro stream2
    exact recordLoop_length_le stream2 _ _ _ 0 false 0

/-- C5 witness: an everywhere-loud stream at one chunk per second with
`max_duration = 5` records exactly 5 chunks. -/
theorem C5_witness :
    (recordFrames (fun _ => [1000]) 1 5 2 1).1.length = maxTotalChunks 1 1 5 ∧
    ∀ stream2 : ℕ → Frame,
      (recordFrames stream2 1 5 2 1).1.length ≤ maxTotalChunks 1 1 5 :=
  C5_continuous_speech_hits_max_duration (fun _ => [1000]) 1 5 2 1
    (fun _ => frameIsLoud_kilo)

/-! ## Claim C2 (corrected) -/

/-- C2 counterexample: on an all-silent stream the recording ends with the
internal `has_spoken` still `false`, yet the wake-word turn performs its
transcription call anyway (`transcribeCalls = 1`, not 0): no flag reaches the
caller — `_record_audio` returns only the joined bytes — so transcription is
not (and cannot be) skipped on silence. -/
theorem C2_counterexample :
    (recordFrames (fun _ => [0]) 1 5 2 1).2 = false ∧
    (wakeTurn "" ([], false) (fun _ => "") (fun _ => ([], false))).transcribeCalls = 1 ∧
    (wakeTurn "" ([], false) (fun _ => "") (fun _ => ([], false))).dispatchCalled = false := by
  refine ⟨?_, rfl, rfl⟩
  simp [recordFrames, maxSilentBefore_unit, maxSilentAfter_unit, maxTotalChunks_unit,
    recordLoop, frameIsLoud_zero]

/-- C2 as amended: `_record_audio` returns only the accumulated utterance —
the concatenation, in capture order, of exactly the frames read (an initial
block of the post-flush stream); the `has_spoken` flag stays internal and is
not part of the return value, so callers always transcribe and detect
silence from an empty transcript. -/
theorem C2_utterance_is_captured_prefix (stream : ℕ → Frame) (chunkSize : ℕ)
    (maxDuration silenceTimeout : ℚ) (sampleRate : ℕ) :
    ∃ k,
      (recordFrames stream chunkSize maxDuration silenceTimeout sampleRate).1 =
        (List.range k).map stream ∧
      record_audio stream chunkSize maxDuration silenceTimeout sampleRate =
        ((List.range k).map stream).flatten := by
  obtain ⟨k, hk⟩ := recordLoop_frames_prefix stream
    (maxSilentBefore sampleRate chunkSize silenceTimeout)
    (maxSilentAfter sampleRate chunkSize)
    (maxTotalChunks sampleRate chunkSize maxDuration) 0 false 0
  refine ⟨k, ?_, ?_⟩
  · rw [recordFrames, hk]
    exact List.map_congr_left (fun j _ => by rw [Nat.zero_add])
  · rw [record_audio, recordFrames, hk]
    refine congrArg _ (List.map_congr_left (fun j _ => by rw [Nat.zero_add]))

/-! ## Claim C1 (code bug)

The barge-in protocol is dead code.  `main.py` wires `tts_speak_fn` to
`tts_client.speak`, whose every control path evaluates to `None`
(`speakModel` always yields `ret = none`), so `custom_tts_speak` hits
`if not tts_thread: return` and never enters the polling loop; and even a
live polling loop could never set `interrupted`, because `tts_client` has no
`interrupt` attribute (`ttsClientHasInterrupt = false`) and the resulting
`AttributeError` is swallowed by the loop's handler. -/

/-- C1: whatever the spoken text, the synthesis outcomes and the wake-word
detections — even one firing at every polled frame — a blocking
`custom_tts_speak` call never raises `InterruptedError`, and the polling
loop that would signal the interrupt can never return `interrupted = true`.
Consequently the `Speaking → Listening` barge-in transition of the claim is
unreachable. -/
theorem C1_barge_in_machinery_is_dead :
    ∀ (text : String) (env : TtsEnv) (detect : ℕ → Bool) (fuel : ℕ),
      ((speakModel text env false).map fun r => customTtsSpeakOutcome detect fuel r.ret) =
        Except.ok false ∧
      pollLoop ttsClientHasInterrupt detect fuel = false := by
  intro text env detect fuel
  have hpoll : ∀ n, pollLoop ttsClientHasInterrupt detect n = false := by
    intro n
    induction n with
    | zero => rfl
    | succ k ih =>
      rw [ttsClientHasInterrupt] at ih ⊢
      by_cases h : detect k = true
      · simp [pollLoop, h, ih]
      · simp [pollLoop, h, ih]
  refine ⟨?_, hpoll fuel⟩
  by_cases h : text = "" || pyStripStr text = ""
  · simp [speakModel, h, customTtsSpeakOutcome, Except.map]
  · simp [speakModel, h, customTtsSpeakOutcome, Except.map]

/-! ## Claims C6 and C7: the follow-up loop and the empty-transcript path -/

/-- The follow-up loop enters at most `fuel` rounds. -/
theorem followUpLoop_rounds_le (ts : ℕ → String) (routeEv : ℕ → List Ev × Bool) :
    ∀ fuel round, (followUpLoop ts routeEv round fuel).roundsStarted ≤ fuel := by
  intro fuel
  induction fuel with
  | zero => intro round; simp [followUpLoop]
  | succ n ih =>
    intro round
    by_cases hts : pyStripStr (ts round) = ""
    · simp [followUpLoop, hts]
    · by_cases hr : (routeEv round).2 = true
      · simp [followUpLoop, hts, hr]
      · have hr' : (routeEv round).2 = false := by simpa using hr
        simp [followUpLoop, hts, hr']
        have := ih (round + 1)
        omega

/-- When no `_route` exception escapes, the follow-up loop's last broadcast
is `idle` — both on the silence break and on range exhaustion. -/
theorem followUpLoop_ends_idle (ts : ℕ → String) (routeEv : ℕ → List Ev × Bool) :
    ∀ fuel round, (followUpLoop ts routeEv round fuel).raised = false →
      ∃ pre, (followUpLoop ts routeEv round fuel).events = pre ++ [Ev.idle] := by
  intro fuel
  induction fuel with
  | zero => intro round _; exact ⟨[], rfl⟩
  | succ n ih =>
    intro round hra
    by_cases hts : pyStripStr (ts round) = ""
    · exact ⟨[Ev.listening, Ev.thinking "..."], by simp [followUpLoop, hts]⟩
    · by_cases hr : (routeEv round).2 = true
      · rw [followUpLoop] at hra
        simp [hts, hr] at hra
      · have hr' : (routeEv round).2 = false := by simpa using hr
        rw [followUpLoop] at hra ⊢
        simp only [hts, hr', if_false, ite_false, if_neg] at hra ⊢
        obtain ⟨pre, hpre⟩ := ih (round + 1) (by simpa [hts, hr'] using hra)
        refine ⟨[Ev.listening, Ev.thinking "...", Ev.thinking (ts round)] ++
          (routeEv round).1 ++ pre, ?_⟩
        simp [hts, hr', hpre]

/-- Every wake-triggered turn's final broadcast is `idle` (the empty
transcript path, the exception handler, and the normal path through the
follow-up loop all end by broadcasting `idle`). -/
theorem wakeTurn_ends_idle (transcript : String) (routeTop : List Ev × Bool)
    (ts : ℕ → String) (routeEv : ℕ → List Ev × Bool) :
    ∃ pre, (wakeTurn transcript routeTop ts routeEv).events = pre ++ [Ev.idle] := by
  by_cases ht : transcript = ""
  · exact ⟨[Ev.listening, Ev.thinking "..."], by simp [wakeTurn, ht]⟩
  · by_cases hr : routeTop.2 = true
    · refine ⟨[Ev.listening, Ev.thinking "...", Ev.thinking transcript] ++ routeTop.1, ?_⟩
      simp [wakeTurn, ht, hr]
    · have hr' : routeTop.2 = false := by simpa using hr
      refine ⟨[Ev.listening, Ev.thinking "...", Ev.thinking transcript] ++ routeTop.1 ++
        (conversationalFollowUp ts routeEv).events, ?_⟩
      simp [wakeTurn, ht, hr']

/-- C6: the follow-up round counter stays in `[0, FOLLOW_UP_MAX_ROUNDS)` —
at most `FOLLOW_UP_MAX_ROUNDS` rounds are ever entered — and whenever no
`_route` exception escapes, the loop leaves the session in `idle`, whether it
stopped on a silent round or by exhausting the round budget; moreover every
wake-triggered turn, whatever its transcripts and route behaviour, ends with
an `idle` broadcast. -/
theorem C6_follow_up_rounds_bounded_and_end_idle :
    (∀ (ts : ℕ → String) (routeEv : ℕ → List Ev × Bool),
      (conversationalFollowUp ts routeEv).roundsStarted ≤ FOLLOW_UP_MAX_ROUNDS) ∧
    (∀ (ts : ℕ → String) (routeEv : ℕ → List Ev × Bool),
      (conversationalFollowUp ts routeEv).raised = false →
      ∃ pre, (conversationalFollowUp ts routeEv).events = pre ++ [Ev.idle]) ∧
    (∀ (transcript : String) (routeTop : List Ev × Bool) (ts : ℕ → String)
      (routeEv : ℕ → List Ev × Bool),
      ∃ pre, (wakeTurn transcript routeTop ts routeEv).events = pre ++ [Ev.idle]) :=
  ⟨fun ts routeEv => followUpLoop_rounds_le ts routeEv FOLLOW_UP_MAX_ROUNDS 0,
   fun ts routeEv h => followUpLoop_ends_idle ts routeEv FOLLOW_UP_MAX_ROUNDS 0 h,
   wakeTurn_ends_idle⟩

/-- C6 witness: five non-silent rounds with well-behaved routes exhaust the
round budget, and a silent first round ends in `idle`. -/
theorem C6_witness :
    (conversationalFollowUp (fun _ => "go on") (fun _ => ([Ev.speaking "ok"], false))).roundsStarted ≤
      FOLLOW_UP_MAX_ROUNDS ∧
    ∃ pre, (conversationalFollowUp (fun _ => "") (fun _ => ([], false))).events =
      pre ++ [Ev.idle] :=
  ⟨C6_follow_up_rounds_bounded_and_end_idle.1 (fun _ => "go on")
      (fun _ => ([Ev.speaking "ok"], false)),
   C6_follow_up_rounds_bounded_and_end_idle.2.1 (fun _ => "") (fun _ => ([], false))
      (by decide)⟩

/-- C7: a transcription failure of both engines yields the empty string; an
empty wake transcript makes the turn broadcast exactly `listening`, the
thinking placeholder, and `idle`, with a single transcription call and no
dispatch; and a blank follow-up transcript makes the round broadcast exactly
the same three events and break, whatever `_route` would have done. -/
theorem C7_failed_or_empty_transcription_goes_idle :
    (∀ engine : String,
      transcribeModel engine (Except.error ()) (Except.error ()) = "") ∧
    (∀ (routeTop : List Ev × Bool) (ts : ℕ → String) (routeEv : ℕ → List Ev × Bool),
      wakeTurn "" routeTop ts routeEv =
        { events := [Ev.listening, Ev.thinking "...", Ev.idle], transcribeCalls := 1,
          dispatchCalled := false }) ∧
    (∀ (ts : ℕ → String) (routeEv : ℕ → List Ev × Bool) (round fuel : ℕ),
      pyStripStr (ts round) = "" →
      followUpLoop ts routeEv round (fuel + 1) =
        { events := [Ev.listening, Ev.thinking "...", Ev.idle], raised := false,
          roundsStarted := 1 }) := by
  refine ⟨?_, ?_, ?_⟩
  · intro engine
    by_cases h : engine = "whisper"
    · simp [transcribeModel, h, transcribeWhisper]
    · simp [transcribeModel, h, transcribeGoogle, transcribeWhisper]
  · intro routeTop ts routeEv
    simp [wakeTurn]
  · intro ts routeEv round fuel h
    simp [followUpLoop, h]

/-- C7 witness: a whitespace-only follow-up transcript (blank after
stripping) ends the round with `idle` and ignores the route behaviour. -/
theorem C7_witness :
    followUpLoop (fun _ => " ") (fun _ => ([Ev.speaking "x"], true)) 0 5 =
      { events := [Ev.listening, Ev.thinking "...", Ev.idle], raised := false,
        roundsStarted := 1 } :=
  C7_failed_or_empty_transcription_goes_idle.2.2 (fun _ => " ")
    (fun _ => ([Ev.speaking "x"], true)) 0 4 (by decide)

/-! ## Claim C8: the event broadcaster -/

/-- One `broadcast` appends the payload to every connection whose send does
not fail; a surviving connection's delivery log grows by exactly that
payload. -/
theorem delivered_bcBroadcast (msg : String) (failed : ℕ → Bool) (a : ℕ)
    (h : failed a = false) :
    ∀ s : BCState, delivered (bcBroadcast s msg failed) a =
      (delivered s a).map (fun l => l ++ [msg]) := by
  intro s
  induction s with
  | nil => simp [bcBroadcast, delivered]
  | cons c t ih =>
    obtain ⟨ci, cl⟩ := c
    by_cases hc : ci = a
    · subst hc
      have hstep : bcBroadcast ((ci, cl) :: t) msg failed =
          (ci, cl ++ [msg]) :: bcBroadcast t msg failed := by
        simp [bcBroadcast, List.filter_cons, h]
      rw [hstep]
      unfold delivered
      rw [List.find?_cons_of_pos _ (by simp), List.find?_cons_of_pos _ (by simp)]
      rfl
    · by_cases hf : failed ci = true
      · have hstep : bcBroadcast ((ci, cl) :: t) msg failed = bcBroadcast t msg failed := by
          simp [bcBroadcast, List.filter_cons, hf]
        have hr : delivered ((ci, cl) :: t) a = delivered t a := by
          unfold delivered
          rw [List.find?_cons_of_neg _ (by simp [hc])]
        rw [hstep, hr, ih]
      · have hf' : failed ci = false := by simpa using hf
        have hstep : bcBroadcast ((ci, cl) :: t) msg failed =
            (ci, cl ++ [msg]) :: bcBroadcast t msg failed := by
          simp [bcBroadcast, List.filter_cons, hf']
        have hr : delivered ((ci, cl) :: t) a = delivered t a := by
          unfold delivered
          rw [List.find?_cons_of_neg _ (by simp [hc])]
        have hl : delivered ((ci, cl ++ [msg]) :: bcBroadcast t msg failed) a =
            delivered (bcBroadcast t msg failed) a := by
          unfold delivered
          rw [List.find?_cons_of_neg _ (by simp [hc])]
        rw [hstep, hl, hr, ih]

/-- A run of `broadcast`s, none of which fails for connection `a`, appends
exactly the published payloads, in publish order, to `a`'s delivery log. -/
theorem delivered_bcBroadcasts (a : ℕ) :
    ∀ (msgs : List (String × (ℕ → Bool))) (s : BCState) (la : List String),
      delivered s a = some la → (∀ m ∈ msgs, m.2 a = false) →
      delivered (bcBroadcasts s msgs) a = some (la ++ msgs.map Prod.fst) := by
  intro msgs
  induction msgs with
  | nil => intro s la hla _; simpa [bcBroadcasts] using hla
  | cons m ms ih =>
    intro s la hla hf
    have h1 : delivered (bcBroadcast s m.1 m.2) a = some (la ++ [m.1]) := by
      rw [delivered_bcBroadcast m.1 m.2 a (hf m (by simp)) s, hla]
      rfl
    have h2 := ih (bcBroadcast s m.1 m.2) (la ++ [m.1]) h1
      (fun x hx => hf x (by simp [hx]))
    simpa [bcBroadcasts, List.append_assoc] using h2

/-- C8: payloads broadcast while a connection is not yet registered are never
seen by it — a subscriber connecting after any sequence of broadcasts starts
with an empty delivery log (there is no replay buffer) — and two connections
registered before a sequence of broadcasts, neither of which ever fails,
both observe exactly the published payloads in publish order. -/
theorem C8_no_replay_and_publish_order :
    (∀ (s : BCState) (msgs : List (String × (ℕ → Bool))) (id : ℕ),
      delivered (bcConnect (bcBroadcasts s msgs) id) id = some []) ∧
    (∀ (s : BCState) (msgs : List (String × (ℕ → Bool))) (a b : ℕ)
      (la lb : List String),
      delivered s a = some la → delivered s b = some lb →
      (∀ m ∈ msgs, m.2 a = false ∧ m.2 b = false) →
      delivered (bcBroadcasts s msgs) a = some (la ++ msgs.map Prod.fst) ∧
      delivered (bcBroadcasts s msgs) b = some (lb ++ msgs.map Prod.fst)) := by
  constructor
  · intro s msgs id
    simp [bcConnect, delivered]
  · intro s msgs a b la lb hla hlb hf
    exact ⟨delivered_bcBroadcasts a msgs s la hla (fun m hm => (hf m hm).1),
      delivered_bcBroadcasts b msgs s lb hlb (fun m hm => (hf m hm).2)⟩

/-- C8 witness: two connections registered first, then two failure-free
broadcasts: both logs read exactly the two payloads in publish order, and a
connection registered afterwards has seen nothing. -/
theorem C8_witness :
    delivered (bcBroadcasts (bcConnect (bcConnect [] 0) 1)
        [("E1", fun _ => false), ("E2", fun _ => false)]) 0 = some ["E1", "E2"] ∧
    delivered (bcBroadcasts (bcConnect (bcConnect [] 0) 1)
        [("E1", fun _ => false), ("E2", fun _ => false)]) 1 = some ["E1", "E2"] ∧
    delivered (bcConnect (bcBroadcasts (bcConnect (bcConnect [] 0) 1)
        [("E1", fun _ => false), ("E2", fun _ => false)]) 7) 7 = some [] := by
  have h := C8_no_replay_and_publish_order
  have h2 := h.2 (bcConnect (bcConnect [] 0) 1)
    [("E1", fun _ => false), ("E2", fun _ => false)] 0 1 [] []
    (by decide) (by decide) (by simp)
  exact ⟨by simpa using h2.1, by simpa using h2.2,
    h.1 (bcConnect (bcConnect [] 0) 1) [("E1", fun _ => false), ("E2", fun _ => false)] 7⟩

/-! ## Claim C9: `speak` never raises -/

/-- C9: for every text and environment, `speak` returns normally; when the
ElevenLabs block fails and the pyttsx3 block works, the audio comes from the
degraded path; when both fail, the call still returns normally with no audio
produced — and in every case the returned value is Python `None`. -/
theorem C9_speak_never_raises (text : String) (env : TtsEnv) (blocking : Bool) :
    (∃ r, speakModel text env blocking = Except.ok r) ∧
    (∀ e, env.elevenAttempt = Except.error e → env.pyttsxAttempt = Except.ok () →
      pyStripStr text ≠ "" → env.hasApiKey = true →
      speakModel text env blocking = Except.ok { audio := SpeakAudio.fallback, ret := none }) ∧
    (∀ e1 e2, env.elevenAttempt = Except.error e1 → env.pyttsxAttempt = Except.error e2 →
      speakModel text env blocking = Except.ok { audio := SpeakAudio.silent, ret := none }) := by
  refine ⟨?_, ?_, ?_⟩
  · by_cases h : text = "" || pyStripStr text = ""
    · exact ⟨{ audio := SpeakAudio.silent, ret := none }, by simp [speakModel, h]⟩
    · refine ⟨{ audio := if env.hasApiKey then
          speakElevenlabsModel env.elevenAttempt env.pyttsxAttempt
        else speakPyttsx3Model env.pyttsxAttempt, ret := none }, ?_⟩
      simp [speakModel, h]
  · intro e he hp hne hkey
    have htext : ¬text = "" := fun h0 => hne (by rw [h0]; rfl)
    have hcond : (text = "" || pyStripStr text = "") = false := by
      simp [htext, hne]
    simp [speakModel, hcond, hkey, speakElevenlabsModel, speakPyttsx3Model, he, hp]
  · intro e1 e2 he hp
    by_cases h : text = "" || pyStripStr text = ""
    · simp [speakModel, h]
    · by_cases hkey : env.hasApiKey = true
      · simp [speakModel, h, hkey, speakElevenlabsModel, speakPyttsx3Model, he, hp]
      · have hkey' : env.hasApiKey = false := by simpa using hkey
        simp [speakModel, h, hkey', speakPyttsx3Model, hp]

/-- C9 witness: with an API key, a failing ElevenLabs block and a working
pyttsx3 block, speaking a non-blank text degrades to the fallback path and
returns `None` without raising. -/
theorem C9_witness :
    speakModel "hi" ⟨true, Except.error "boom", Except.ok ()⟩ true =
      Except.ok { audio := SpeakAudio.fallback, ret := none } :=
  (C9_speak_never_raises "hi" ⟨true, Except.error "boom", Except.ok ()⟩
    true).2.1 "boom" rfl rfl (by decide) rfl

/-! ## Claim C10: the dispatcher response parser -/

/-- Two patterns with different head characters cannot both match. -/
theorem startsWith_head_ne (p q : Char) (ps qs l : List Char) (hpq : p ≠ q)
    (h1 : startsWithChars (p :: ps) l = true) :
    startsWithChars (q :: qs) l = false := by
  cases l with
  | nil => simp [startsWithChars] at h1
  | cons c cs =>
    simp only [startsWithChars, Bool.and_eq_true, decide_eq_true_eq] at h1
    have hq : decide (q = c) = false := by
      apply decide_eq_false
      intro hqc
      exact hpq (h1.1.trans hqc.symm)
    simp [startsWithChars, hq]

/-- A `SAY:` line matches none of the four earlier tags of the if/elif
chain (their head characters differ). -/
theorem isSayLine_excludes (l : List Char) (h : isSayLine l = true) :
    isActionLine l = false ∧ startsWithChars "MESSAGE:".data l = false ∧
    startsWithChars "TIME:".data l = false ∧
    startsWithChars "TOPIC:".data l = false := by
  have hs : startsWithChars ('S' :: "AY:".data) l = true := by
    have e : "SAY:".data = 'S' :: "AY:".data := rfl
    rwa [isSayLine, e] at h
  refine ⟨?_, ?_, ?_, ?_⟩
  · have e : "ACTION:".data = 'A' :: "CTION:".data := rfl
    rw [isActionLine, e]
    exact startsWith_head_ne 'S' 'A' _ _ l (by decide) hs
  · have e : "MESSAGE:".data = 'M' :: "ESSAGE:".data := rfl
    rw [e]
    exact startsWith_head_ne 'S' 'M' _ _ l (by decide) hs
  · have e : "TIME:".data = 'T' :: "IME:".data := rfl
    rw [e]
    exact startsWith_head_ne 'S' 'T' _ _ l (by decide) hs
  · have e : "TOPIC:".data = 'T' :: "OPIC:".data := rfl
    rw [e]
    exact startsWith_head_ne 'S' 'T' _ _ l (by decide) hs

/-- An `ACTION:` line sets the action to the lowercased, stripped remainder. -/
theorem dispatchStep_action_yes (r : DispatchResult) (l : List Char)
    (h : isActionLine l = true) :
    (dispatchStep r l).action = String.mk (lowerChars (stripChars (l.drop 7))) := by
  simp [dispatchStep, h]

/-- Any other line leaves the action unchanged. -/
theorem dispatchStep_action_no (r : DispatchResult) (l : List Char)
    (h : isActionLine l = false) :
    (dispatchStep r l).action = r.action := by
  simp only [dispatchStep, h]
  split_ifs <;> simp_all

/-- A `SAY:` line sets the say field to the stripped remainder. -/
theorem dispatchStep_say_yes (r : DispatchResult) (l : List Char)
    (h : isSayLine l = true) :
    (dispatchStep r l).say = String.mk (stripChars (l.drop 4)) := by
  obtain ⟨h1, h2, h3, h4⟩ := isSayLine_excludes l h
  simp [dispatchStep, h, h1, h2, h3, h4]

/-- Any other line leaves the say field unchanged. -/
theorem dispatchStep_say_no (r : DispatchResult) (l : List Char)
    (h : isSayLine l = false) :
    (dispatchStep r l).say = r.say := by
  simp only [dispatchStep, h]
  split_ifs <;> simp_all

/-- The last element of a nonempty list exists. -/
theorem getLast?_cons_some {α : Type} :
    ∀ (xs : List α) (x : α), ∃ y, (x :: xs).getLast? = some y := by
  intro xs
  induction xs with
  | nil => intro x; exact ⟨x, rfl⟩
  | cons x2 t ih =>
    intro x
    rw [List.getLast?_cons_cons]
    exact ih x2

/-- The folded action is determined by the last `ACTION:` line, if any. -/
theorem foldl_dispatch_action :
    ∀ (ls : List (List Char)) (r : DispatchResult),
      (ls.foldl dispatchStep r).action =
        (((ls.filter isActionLine).getLast?).map
          (fun l => String.mk (lowerChars (stripChars (l.drop 7))))).getD r.action := by
  intro ls
  induction ls with
  | nil => intro r; simp
  | cons l t ih =>
    intro r
    rw [List.foldl_cons, ih]
    by_cases hl : isActionLine l = true
    · rw [List.filter_cons_of_pos (by simpa using hl)]
      cases hft : t.filter isActionLine with
      | nil => simp [hft, dispatchStep_action_yes r l hl]
      | cons x xs =>
        obtain ⟨y, hy⟩ := getLast?_cons_some xs x
        simp [hft, List.getLast?_cons_cons, hy]
    · have hl' : isActionLine l = false := by simpa using hl
      rw [List.filter_cons_of_neg (by simpa using hl),
        dispatchStep_action_no r l hl']

/-- The folded say field is determined by the last `SAY:` line, if any. -/
theorem foldl_dispatch_say :
    ∀ (ls : List (List Char)) (r : DispatchResult),
      (ls.foldl dispatchStep r).say =
        (((ls.filter isSayLine).getLast?).map
          (fun l => String.mk (stripChars (l.drop 4)))).getD r.say := by
  intro ls
  induction ls with
  | nil => intro r; simp
  | cons l t ih =>
    intro r
    rw [List.foldl_cons, ih]
    by_cases hl : isSayLine l = true
    · rw [List.filter_cons_of_pos (by simpa using hl)]
      cases hft : t.filter isSayLine with
      | nil => simp [hft, dispatchStep_say_yes r l hl]
      | cons x xs =>
        obtain ⟨y, hy⟩ := getLast?_cons_some xs x
        simp [hft, List.getLast?_cons_cons, hy]
    · have hl' : isSayLine l = false := by simpa using hl
      rw [List.filter_cons_of_neg (by simpa using hl),
        dispatchStep_say_no r l hl']

/-- C10 counterexample: the input consisting of the single line `SAY:hi`
contains no `ACTION:` line, yet the parser's say field is `hi`, not the
entire input string as the claim would have it. -/
theorem C10_counterexample :
    (∀ l ∈ dispatchLines "SAY:hi", isActionLine l = false) ∧
    (parseDispatchResponse "SAY:hi").say = "hi" ∧
    ("hi" : String) ≠ "SAY:hi" := by
  refine ⟨by decide, by decide, by decide⟩

/-- C10 as amended: for every input string the parser returns a record that
carries all five fields; when no (stripped, nonempty) line starts with
`ACTION:` the action is the default `chat`; when no line starts with `SAY:`
the say field is the entire input string; and when `ACTION:` lines exist the
action is the lowercased, stripped remainder of the last one. -/
theorem C10_parse_dispatch_defaults :
    (∀ response, (∀ l ∈ dispatchLines response, isActionLine l = false) →
      (parseDispatchResponse response).action = "chat") ∧
    (∀ response, (∀ l ∈ dispatchLines response, isSayLine l = false) →
      (parseDispatchResponse response).say = response) ∧
    (∀ response l, ((dispatchLines response).filter isActionLine).getLast? = some l →
      (parseDispatchResponse response).action =
        String.mk (lowerChars (stripChars (l.drop 7)))) := by
  refine ⟨?_, ?_, ?_⟩
  · intro response hno
    rw [parseDispatchResponse, foldl_dispatch_action]
    cases hft : (dispatchLines response).filter isActionLine with
    | nil => simp [hft]
    | cons x xs =>
      exfalso
      have hx : x ∈ (dispatchLines response).filter isActionLine := by
        rw [hft]; exact List.mem_cons_self x xs
      have := List.mem_filter.mp hx
      rw [hno x this.1] at this
      exact Bool.false_ne_true this.2
  · intro response hno
    rw [parseDispatchResponse, foldl_dispatch_say]
    cases hft : (dispatchLines response).filter isSayLine with
    | nil => simp [hft]
    | cons x xs =>
      exfalso
      have hx : x ∈ (dispatchLines response).filter isSayLine := by
        rw [hft]; exact List.mem_cons_self x xs
      have := List.mem_filter.mp hx
      rw [hno x this.1] at this
      exact Bool.false_ne_true this.2
  · intro response l hlast
    rw [parseDispatchResponse, foldl_dispatch_action, hlast]
    rfl

/-- C10 witness for the amended statement: the last of two `ACTION:` lines
wins, lowercased and stripped. -/
theorem C10_witness :
    (parseDispatchResponse "no tags here").action = "chat" ∧
    (parseDispatchResponse "ACTION: Chat\nACTION: Remind\nSAY: ok").action = "remind" := by
  constructor
  · exact C10_parse_dispatch_defaults.1 "no tags here" (by decide)
  · have h := C10_parse_dispatch_defaults.2.2 "ACTION: Chat\nACTION: Remind\nSAY: ok"
      "ACTION: Remind".data (by decide)
    rw [h]
    decide

end Viwo
